import Mathlib

/-!
Verification development for the ailo-mcp-sdk repository: a reverse
WebSocket signal client (AiloClient in src/ailo-client.ts) plus the MCP
channel bridge (runMcpChannel in src/bootstrap.ts) and the stdio guard.
Each definition below is a shallow embedding of one piece of the
TypeScript source; theorems settle the specification claims.
-/

namespace AiloSdk

/-! ### JavaScript string primitives used by the source -/

/-- Whitespace recognised by the JavaScript string trim operation
(restricted to the ASCII range, which is all this codebase emits). -/
def isJsSpace (c : Char) : Bool :=
  c = ' ' || c = '\t' || c = '\n' || c = '\r' || c = '\x0b' || c = '\x0c'

/-- Embedding of the JavaScript expression s.trim(): drop leading and
trailing whitespace. -/
def jsTrim (s : String) : String :=
  String.mk (((s.data.dropWhile isJsSpace).reverse.dropWhile isJsSpace).reverse)

/-- Character-list prefix test (executable helper for startsWith). -/
def charsPrefix : List Char → List Char → Bool
  | [], _ => true
  | _ :: _, [] => false
  | a :: as, b :: bs => (a = b) && charsPrefix as bs

/-- Embedding of the JavaScript expression s.startsWith(p). -/
def jsStartsWith (s p : String) : Bool :=
  charsPrefix p.data s.data

/-! ### Request correlation (AiloClient.request, src/ailo-client.ts lines 59-80)

The private request method registers one message listener per call; the
listener inspects every incoming frame, reacts only to a response frame
carrying its own correlation id, removes itself, and settles the promise
exactly once. -/

/-- A parsed incoming frame, as the Frame type of src/ailo-client.ts.
The payload is left polymorphic, exactly as the TypeScript unknown. -/
structure Frame (α : Type) where
  ftype : String
  id : Option String
  ok : Option Bool
  payload : Option α
  errorMessage : Option String
deriving DecidableEq, Repr

/-- Outcome of a settled promise. -/
inductive Settled (α : Type) where
  | resolvedWith (p : α)
  | rejectedWith (msg : String)
deriving DecidableEq, Repr

/-- State of one per-request message listener: has the promise settled,
and is the listener still attached to the socket. -/
structure HandlerState (α : Type) where
  settled : Option (Settled α)
  listenerOn : Bool
deriving DecidableEq, Repr

/-- How the listener settles the promise from a matching response frame:
resolve with the payload (or the empty object default) when ok is true,
otherwise reject with the error message (or the method-failed fallback).
Mirrors lines 70-74 of src/ailo-client.ts. -/
def frameOutcome {α : Type} (method : String) (defaultPayload : α) (f : Frame α) : Settled α :=
  if f.ok = some true then Settled.resolvedWith (f.payload.getD defaultPayload)
  else Settled.rejectedWith (f.errorMessage.getD (method ++ " failed"))

/-- One delivery of a frame to the per-request listener (the handler
closure of src/ailo-client.ts lines 66-76). A removed listener receives
nothing; a frame whose type or id does not match is ignored; a matching
response frame removes the listener and settles the promise. -/
def handlerStep {α : Type} (myId method : String) (defaultPayload : α)
    (s : HandlerState α) (f : Frame α) : HandlerState α :=
  if s.listenerOn = false then s
  else if f.ftype = "res" ∧ f.id = some myId then
    ⟨some (frameOutcome method defaultPayload f), false⟩
  else s

/-- Deliver a whole arrival-ordered sequence of frames to one listener,
starting unsettled and attached. -/
def processFrames {α : Type} (myId method : String) (defaultPayload : α)
    (frames : List (Frame α)) : HandlerState α :=
  frames.foldl (handlerStep myId method defaultPayload) ⟨none, true⟩

/-- The first response frame whose id matches the correlation id. -/
def firstMatching {α : Type} (myId : String) (frames : List (Frame α)) : Option (Frame α) :=
  frames.find? (fun f => decide (f.ftype = "res" ∧ f.id = some myId))

theorem handlerStep_of_off {α : Type} (myId method : String) (d : α)
    (s : HandlerState α) (f : Frame α) (h : s.listenerOn = false) :
    handlerStep myId method d s f = s := by
  simp [handlerStep, h]

theorem foldl_handlerStep_of_off {α : Type} (myId method : String) (d : α)
    (frames : List (Frame α)) (s : HandlerState α) (h : s.listenerOn = false) :
    frames.foldl (handlerStep myId method d) s = s := by
  induction frames with
  | nil => rfl
  | cons f fs ih => simp [List.foldl_cons, handlerStep_of_off myId method d s f h, ih]

theorem processFrames_eq_firstMatching {α : Type} (myId method : String) (d : α)
    (frames : List (Frame α)) :
    processFrames myId method d frames =
      match firstMatching myId frames with
      | none => ⟨none, true⟩
      | some f => ⟨some (frameOutcome method d f), false⟩ := by
  induction frames with
  | nil => rfl
  | cons f fs ih =>
      by_cases hm : f.ftype = "res" ∧ f.id = some myId
      · have hstep : handlerStep myId method d ⟨none, true⟩ f =
            ⟨some (frameOutcome method d f), false⟩ := by
          simp [handlerStep, hm]
        have hrest : fs.foldl (handlerStep myId method d)
            (⟨some (frameOutcome method d f), false⟩ : HandlerState α) =
            ⟨some (frameOutcome method d f), false⟩ :=
          foldl_handlerStep_of_off myId method d fs _ rfl
        simp [processFrames, List.foldl_cons, hstep, hrest, firstMatching,
          List.find?_cons, hm]
      · have hstep : handlerStep myId method d ⟨none, true⟩ f = ⟨none, true⟩ := by
          simp [handlerStep, hm]
        have hfind : (decide (f.ftype = "res" ∧ f.id = some myId)) = false := by
          simp [hm]
        simp only [processFrames, List.foldl_cons, hstep, firstMatching,
          List.find?_cons, hfind]
        exact ih

/-- C4: on one open connection, a pending request is settled exactly by the
first response frame whose id equals its correlation id — resolved with the
payload when ok is true, rejected otherwise — for every arrival order;
frames with a different id (or a non-response type) leave the listener
state unchanged; the listener is removed at that first match, so each
correlation id is settled at most once (once removed, any further frame is
a no-op). -/
theorem request_correlation {α : Type} (myId method : String) (d : α)
    (frames : List (Frame α)) :
    (processFrames myId method d frames =
      match firstMatching myId frames with
      | none => ⟨none, true⟩
      | some f => ⟨some (frameOutcome method d f), false⟩) ∧
    (∀ (s : HandlerState α) (f : Frame α),
      ¬ (f.ftype = "res" ∧ f.id = some myId) → handlerStep myId method d s f = s) ∧
    (∀ (s : HandlerState α) (f : Frame α),
      s.listenerOn = false → handlerStep myId method d s f = s) := by
  refine ⟨processFrames_eq_firstMatching myId method d frames, ?_, ?_⟩
  · intro s f hm
    by_cases hon : s.listenerOn = false
    · exact handlerStep_of_off myId method d s f hon
    · simp [handlerStep, hon, hm]
  · intro s f hon
    exact handlerStep_of_off myId method d s f hon

/-- Witness for C4: a concrete two-request scenario with responses arriving
out of issue order — request A (id a-1) and request B (id b-2), responses
delivered B then A — where each listener settles with its own payload, the
ignore-mismatched-frame hypothesis and the removed-listener hypothesis are
discharged on concrete frames. -/
theorem request_correlation_witness :
    (processFrames "a-1" "a" 0
        [Frame.mk "res" (some "b-2") (some true) (some 20) none,
         Frame.mk "res" (some "a-1") (some true) (some 10) none] =
      ⟨some (Settled.resolvedWith 10), false⟩) ∧
    (processFrames "b-2" "b" 0
        [Frame.mk "res" (some "b-2") (some true) (some 20) none,
         Frame.mk "res" (some "a-1") (some true) (some 10) none] =
      ⟨some (Settled.resolvedWith 20), false⟩) ∧
    (handlerStep "a-1" "a" 0 (⟨none, true⟩ : HandlerState Nat)
        (Frame.mk "res" (some "b-2") (some true) (some 20) none) = ⟨none, true⟩) ∧
    (handlerStep "a-1" "a" 0 (⟨some (Settled.resolvedWith 10), false⟩ : HandlerState Nat)
        (Frame.mk "res" (some "a-1") (some true) (some 99) none) =
      ⟨some (Settled.resolvedWith 10), false⟩) := by
  refine ⟨?_, ?_, ?_, ?_⟩
  · have h := (request_correlation "a-1" "a" 0
        [Frame.mk "res" (some "b-2") (some true) (some 20) none,
         Frame.mk "res" (some "a-1") (some true) (some 10) none]).1
    rw [h]; decide
  · have h := (request_correlation "b-2" "b" 0
        [Frame.mk "res" (some "b-2") (some true) (some 20) none,
         Frame.mk "res" (some "a-1") (some true) (some 10) none]).1
    rw [h]; decide
  · exact (request_correlation "a-1" "a" 0 []).2.1 _ _ (by decide)
  · exact (request_correlation "a-1" "a" 0 []).2.2 _ _ (by decide)

/-! ### Fail-fast precondition (AiloClient.request, src/ailo-client.ts lines 61-64)

Before anything is written, request rejects immediately when this.ws is
null or its readyState is not OPEN. -/

/-- WebSocket ready states, as the ws library constants. -/
inductive ReadyState where
  | CONNECTING
  | OPEN
  | CLOSING
  | CLOSED
deriving DecidableEq, Repr

/-- Correlation id allocation: the template literal method-counter of
src/ailo-client.ts line 65. -/
def corrId (method : String) (n : Nat) : String := method ++ "-" ++ toString n

/-- A request frame as serialized onto the socket (the JSON object of
src/ailo-client.ts line 78, params elided — the claims never inspect them). -/
structure SentFrame where
  ftype : String
  id : String
  method : String
deriving DecidableEq, Repr

/-- Immediate (synchronous) effect of one call to AiloClient.request:
either the promise is rejected at once, or a correlation id is allocated
from the incremented counter, a listener is attached and one frame is
written to the socket. -/
structure RequestStart where
  rejectedWith : Option String
  framesSent : List SentFrame
  listenerAdded : Bool
  reqIdAfter : Nat
deriving DecidableEq, Repr

/-- Embedding of the synchronous prologue of AiloClient.request
(src/ailo-client.ts lines 59-80): reject with the not-connected error when
this.ws is null or not OPEN (writing nothing, touching no counter);
otherwise increment the counter, attach the handler, send the frame. -/
def requestStart (ws : Option ReadyState) (reqId : Nat) (method : String) : RequestStart :=
  match ws with
  | none => ⟨some "Ailo WebSocket not connected", [], false, reqId⟩
  | some st =>
      if st ≠ ReadyState.OPEN then ⟨some "Ailo WebSocket not connected", [], false, reqId⟩
      else
        let rid := reqId + 1
        ⟨none, [⟨"req", corrId method rid, method⟩], true, rid⟩

/-- C3: a request made while the socket is absent or not open rejects
immediately with the not-connected error, writes nothing to the socket and
attaches no listener. -/
theorem request_fails_fast_when_disconnected (ws : Option ReadyState) (reqId : Nat)
    (method : String) (h : ws = none ∨ ws ≠ some ReadyState.OPEN) :
    (requestStart ws reqId method).rejectedWith = some "Ailo WebSocket not connected" ∧
    (requestStart ws reqId method).framesSent = [] ∧
    (requestStart ws reqId method).listenerAdded = false := by
  match ws with
  | none => exact ⟨rfl, rfl, rfl⟩
  | some st =>
      have hne : st ≠ ReadyState.OPEN := by
        rcases h with h | h
        · exact absurd h (by simp)
        · intro hst; exact h (by rw [hst])
      simp [requestStart, hne]

/-- Witness for C3: with no socket at all (ws null), a channel.accept
request rejects with the not-connected error, sends nothing and adds no
listener. -/
theorem request_fails_fast_when_disconnected_witness :
    (requestStart none 0 "channel.accept").rejectedWith =
      some "Ailo WebSocket not connected" ∧
    (requestStart none 0 "channel.accept").framesSent = [] ∧
    (requestStart none 0 "channel.accept").listenerAdded = false :=
  request_fails_fast_when_disconnected none 0 "channel.accept" (Or.inl rfl)

/-! ### Connection lifecycle (connect, scheduleReconnect, close;
src/ailo-client.ts lines 82-146 and 179-188)

The client state tracked here mirrors the mutable fields of AiloClient
(this.ws as a nullable handle, this.reconnectTimer as a nullable timer
handle), the environment of live timers created by setTimeout, a log of
every delay ever passed to setTimeout, and ghost history needed to state
the claims: whether close() was ever called, how many sockets have been
told to close locally but have not yet emitted their close event, how many
requests are pending on the current socket, and how many requests were
pending on a socket that closed and were never settled afterwards. -/

/-- Mutable state of one AiloClient instance plus its timer environment. -/
structure ClientState where
  wsSet : Bool
  timerSet : Bool
  liveTimers : Nat
  delays : List Nat
  closeCalled : Bool
  closingSockets : Nat
  curPending : Nat
  orphaned : Nat
deriving DecidableEq, Repr

/-- The fixed reconnection delay of src/ailo-client.ts line 145. -/
def RECONNECT_DELAY_MS : Nat := 3000

/-- Embedding of AiloClient.scheduleReconnect (lines 138-146): a no-op
when a timer handle is already stored, otherwise one new timer with the
fixed delay. -/
def scheduleReconnect (s : ClientState) : ClientState :=
  if s.timerSet then s
  else
    { s with timerSet := true, liveTimers := s.liveTimers + 1,
             delays := RECONNECT_DELAY_MS :: s.delays }

/-- Embedding of the socket close handler (lines 127-130): set this.ws to
null and call scheduleReconnect. The handler body never settles any
pending request promise, so every request pending on the closing socket
becomes orphaned and stays unsettled. -/
def onSocketClose (s : ClientState) : ClientState :=
  scheduleReconnect
    { s with wsSet := false, orphaned := s.orphaned + s.curPending, curPending := 0 }

/-- Embedding of the synchronous start of connect() (lines 84-85): create
a socket and store it in this.ws. -/
def connectStart (s : ClientState) : ClientState :=
  { s with wsSet := true }

/-- Embedding of AiloClient.close (lines 179-188): clear the stored timer
if any (destroying the live timer), initiate closing of the stored socket
if any, and null this.ws. No other field of the instance is touched — in
particular no flag records that close was called. -/
def closeFn (s : ClientState) : ClientState :=
  { s with timerSet := false,
           liveTimers := s.liveTimers - (if s.timerSet then 1 else 0),
           closingSockets := s.closingSockets + (if s.wsSet then 1 else 0),
           wsSet := false,
           closeCalled := true }

/-- The initial state of a freshly constructed AiloClient. -/
def initState : ClientState :=
  ⟨false, false, 0, [], false, 0, 0, 0⟩

/-- One event on the single-threaded control loop. Each constructor runs
exactly the handler the source installs for that event. -/
inductive Step : ClientState → ClientState → Prop where
  | userConnect (s : ClientState) : Step s (connectStart s)
  | remoteClose (s : ClientState) (h : s.wsSet = true) : Step s (onSocketClose s)
  | localCloseEvent (s : ClientState) (h : 1 ≤ s.closingSockets) :
      Step s (onSocketClose { s with closingSockets := s.closingSockets - 1 })
  | timerFire (s : ClientState) (h : s.timerSet = true) :
      Step s (connectStart { s with timerSet := false, liveTimers := s.liveTimers - 1 })
  | connectFailed (s : ClientState) : Step s (scheduleReconnect s)
  | callClose (s : ClientState) : Step s (closeFn s)
  | issueRequest (s : ClientState) (h : s.wsSet = true) :
      Step s { s with curPending := s.curPending + 1 }
  | responseArrives (s : ClientState) (h : 1 ≤ s.curPending) :
      Step s { s with curPending := s.curPending - 1 }

/-- States reachable from a freshly constructed client. -/
inductive Reachable : ClientState → Prop where
  | init : Reachable initState
  | step {s t : ClientState} (hs : Reachable s) (hst : Step s t) : Reachable t

theorem scheduleReconnect_timerSet (s : ClientState) :
    (scheduleReconnect s).timerSet = true := by
  unfold scheduleReconnect
  by_cases h : s.timerSet
  · simp [h]
  · simp [h]

theorem scheduleReconnect_liveTimers (s : ClientState)
    (h : s.liveTimers = if s.timerSet then 1 else 0) :
    (scheduleReconnect s).liveTimers = 1 := by
  unfold scheduleReconnect
  by_cases ht : s.timerSet
  · simp [ht] at h; simp [ht, h]
  · simp [ht] at h; simp [ht, h]

theorem scheduleReconnect_delays (s : ClientState) :
    (scheduleReconnect s).delays = s.delays ∨
    (scheduleReconnect s).delays = RECONNECT_DELAY_MS :: s.delays := by
  unfold scheduleReconnect
  by_cases ht : s.timerSet
  · simp [ht]
  · simp [ht]

/-- The single-timer invariant together with the fixed-delay invariant:
the number of live reconnect timers is one when the handle is stored and
zero otherwise, and every delay ever passed to setTimeout is the fixed
one. -/
def TimerInv (s : ClientState) : Prop :=
  s.liveTimers = (if s.timerSet then 1 else 0) ∧
  ∀ d ∈ s.delays, d = RECONNECT_DELAY_MS

theorem timerInv_init : TimerInv initState := by
  constructor
  · rfl
  · intro d hd; simp [initState] at hd

theorem timerInv_scheduleReconnect (s : ClientState) (h : TimerInv s) :
    TimerInv (scheduleReconnect s) := by
  obtain ⟨h1, h2⟩ := h
  unfold scheduleReconnect
  by_cases ht : s.timerSet
  · simpa [ht] using ⟨h1, h2⟩
  · refine ⟨?_, ?_⟩
    · simp [ht] at h1; simp [ht, h1]
    · intro d hd
      simp [ht] at hd
      rcases hd with hd | hd
      · exact hd
      · exact h2 d hd

theorem timerInv_step {s t : ClientState} (h : TimerInv s) (hst : Step s t) :
    TimerInv t := by
  obtain ⟨h1, h2⟩ := h
  cases hst with
  | userConnect => exact ⟨h1, h2⟩
  | remoteClose hws =>
      exact timerInv_scheduleReconnect _ ⟨h1, h2⟩
  | localCloseEvent hcs =>
      exact timerInv_scheduleReconnect _ ⟨h1, h2⟩
  | timerFire ht =>
      refine ⟨?_, h2⟩
      simp [connectStart]
      rw [h1]; simp [ht]
  | connectFailed => exact timerInv_scheduleReconnect _ ⟨h1, h2⟩
  | callClose =>
      refine ⟨?_, h2⟩
      simp only [closeFn]
      rw [h1]
      by_cases ht : s.timerSet
      · simp [ht]
      · simp [ht]
  | issueRequest hws => exact ⟨h1, h2⟩
  | responseArrives hp => exact ⟨h1, h2⟩

theorem timerInv_reachable {s : ClientState} (h : Reachable s) : TimerInv s := by
  induction h with
  | init => exact timerInv_init
  | step hs hst ih => exact timerInv_step ih hst

theorem scheduleReconnect_orphaned (s : ClientState) :
    (scheduleReconnect s).orphaned = s.orphaned := by
  unfold scheduleReconnect
  by_cases h : s.timerSet <;> simp [h]

theorem scheduleReconnect_of_timerSet (s : ClientState) (h : s.timerSet = true) :
    scheduleReconnect s = s := by
  simp [scheduleReconnect, h]

/-- Helper trace: a state with the socket open, no pending timer, and a
given number of logged reconnect delays is reachable for every count —
each close-then-retry cycle logs one more fixed delay. -/
theorem reachable_with_delays (n : Nat) :
    ∃ s : ClientState, Reachable s ∧ s.wsSet = true ∧ s.timerSet = false ∧
      s.delays.length = n ∧ ∀ d ∈ s.delays, d = RECONNECT_DELAY_MS := by
  induction n with
  | zero =>
      refine ⟨connectStart initState, ?_, rfl, rfl, rfl, ?_⟩
      · exact Reachable.step Reachable.init (Step.userConnect initState)
      · intro d hd; simp [connectStart, initState] at hd
  | succ n ih =>
      obtain ⟨s, hreach, hws, ht, hlen, hall⟩ := ih
      have hclose : Step s (onSocketClose s) := Step.remoteClose s hws
      have hsched : onSocketClose s =
          { s with wsSet := false, orphaned := s.orphaned + s.curPending,
                   curPending := 0, timerSet := true,
                   liveTimers := s.liveTimers + 1,
                   delays := RECONNECT_DELAY_MS :: s.delays } := by
        simp [onSocketClose, scheduleReconnect, ht]
      refine Exists.intro
        (connectStart { (onSocketClose s) with
                        timerSet := false,
                        liveTimers := (onSocketClose s).liveTimers - 1 })
        ⟨?_, rfl, rfl, ?_, ?_⟩
      · refine Reachable.step (Reachable.step hreach hclose) ?_
        exact Step.timerFire (onSocketClose s) (by rw [hsched])
      · simp [connectStart, hsched, hlen]
      · intro d hd
        simp only [connectStart, hsched] at hd
        simp at hd
        rcases hd with hd | hd
        · exact hd
        · exact hall d hd

/-- C5: in every reachable client state at most one reconnect timer is
live (exactly one when the handle is stored, none otherwise) and every
delay ever passed to setTimeout is the fixed 3000 ms; scheduling while a
timer is pending is a no-op; a failed connect attempt always reschedules
(the catch handler runs scheduleReconnect, after which a timer is
pending); and there is no attempt cap — states with arbitrarily many
logged reconnect delays, all equal to the fixed delay, are reachable. -/
theorem reconnect_single_timer_fixed_delay :
    (∀ s : ClientState, Reachable s →
      s.liveTimers = (if s.timerSet then 1 else 0) ∧
      ∀ d ∈ s.delays, d = RECONNECT_DELAY_MS) ∧
    (∀ s : ClientState, s.timerSet = true → scheduleReconnect s = s) ∧
    (∀ s : ClientState, (scheduleReconnect s).timerSet = true) ∧
    (∀ n : Nat, ∃ s : ClientState, Reachable s ∧ s.delays.length = n ∧
      ∀ d ∈ s.delays, d = RECONNECT_DELAY_MS) := by
  refine ⟨?_, scheduleReconnect_of_timerSet, scheduleReconnect_timerSet, ?_⟩
  · intro s hs
    exact timerInv_reachable hs
  · intro n
    obtain ⟨s, hreach, _, _, hlen, hall⟩ := reachable_with_delays n
    exact ⟨s, hreach, hlen, hall⟩

/-- Witness for C5: the invariant instantiated at the initial state (its
reachability discharged by the base constructor), the no-op conjunct
instantiated at a concrete state whose timer handle is set, and the
no-cap conjunct at count 2. -/
theorem reconnect_single_timer_fixed_delay_witness :
    (initState.liveTimers = (if initState.timerSet then 1 else 0) ∧
      ∀ d ∈ initState.delays, d = RECONNECT_DELAY_MS) ∧
    (scheduleReconnect ⟨false, true, 1, [3000], false, 0, 0, 0⟩ =
      ⟨false, true, 1, [3000], false, 0, 0, 0⟩) ∧
    (∃ s : ClientState, Reachable s ∧ s.delays.length = 2 ∧
      ∀ d ∈ s.delays, d = RECONNECT_DELAY_MS) :=
  ⟨reconnect_single_timer_fixed_delay.1 initState Reachable.init,
   reconnect_single_timer_fixed_delay.2.1 ⟨false, true, 1, [3000], false, 0, 0, 0⟩ rfl,
   reconnect_single_timer_fixed_delay.2.2.2 2⟩

/-- C2 divergence: after close() is called on a connected client, the
socket's own close event still fires, and its handler reschedules a
reconnect timer — the code keeps no closed flag, so close() does not
disable future reconnection. The trace connect, close(), socket-close-event
is reachable and ends with closeCalled true yet a live reconnect timer,
from which the timer firing performs a reconnect (a new socket is stored).
A second close() on the resulting state of close() changes nothing
(idempotence of the immediate effect holds). -/
theorem close_then_close_event_schedules_reconnect :
    Reachable (onSocketClose
      { closeFn (connectStart initState) with
        closingSockets := (closeFn (connectStart initState)).closingSockets - 1 }) ∧
    (onSocketClose
      { closeFn (connectStart initState) with
        closingSockets := (closeFn (connectStart initState)).closingSockets - 1 }).closeCalled
      = true ∧
    (onSocketClose
      { closeFn (connectStart initState) with
        closingSockets := (closeFn (connectStart initState)).closingSockets - 1 }).timerSet
      = true ∧
    (onSocketClose
      { closeFn (connectStart initState) with
        closingSockets := (closeFn (connectStart initState)).closingSockets - 1 }).liveTimers
      = 1 ∧
    (connectStart initState).wsSet = true ∧
    closeFn (closeFn (connectStart initState)) = closeFn (connectStart initState) := by
  refine ⟨?_, by decide, by decide, by decide, rfl, by decide⟩
  refine Reachable.step (Reachable.step (Reachable.step Reachable.init
    (Step.userConnect initState)) (Step.callClose (connectStart initState))) ?_
  exact Step.localCloseEvent (closeFn (connectStart initState)) (by decide)

/-- C1 divergence: when the socket closes with a request pending, the
close handler (this.ws = null; scheduleReconnect) never settles the
pending promise, so the request is orphaned unsettled — reachably so with
one orphan — and no later event of the client ever settles an orphaned
request: the orphan count never decreases along any step. The pending
request therefore hangs forever instead of being rejected with a
connection-lost error. -/
theorem pending_request_hangs_on_socket_close :
    (Reachable (onSocketClose
      { connectStart initState with curPending := 1 }) ∧
     (onSocketClose { connectStart initState with curPending := 1 }).orphaned = 1) ∧
    (∀ s t : ClientState, Step s t → s.orphaned ≤ t.orphaned) := by
  constructor
  · constructor
    · refine Reachable.step (Reachable.step (Reachable.step Reachable.init
        (Step.userConnect initState)) (Step.issueRequest (connectStart initState) rfl)) ?_
      exact Step.remoteClose { connectStart initState with curPending := 1 } rfl
    · decide
  · intro s t hst
    cases hst with
    | userConnect => exact Nat.le_refl _
    | remoteClose hws =>
        rw [onSocketClose, scheduleReconnect_orphaned]
        exact Nat.le_add_right _ _
    | localCloseEvent hcs =>
        rw [onSocketClose, scheduleReconnect_orphaned]
        exact Nat.le_add_right _ _
    | timerFire ht => exact Nat.le_refl _
    | connectFailed => rw [scheduleReconnect_orphaned]
    | callClose => exact Nat.le_refl _
    | issueRequest hws => exact Nat.le_refl _
    | responseArrives hp => exact Nat.le_refl _

/-- Witness for C1's theorem: the never-settled conjunct applied to the
concrete initial connect step, discharging its Step hypothesis with an
explicit constructor. -/
theorem pending_request_hangs_on_socket_close_witness :
    initState.orphaned ≤ (connectStart initState).orphaned :=
  pending_request_hangs_on_socket_close.2 initState (connectStart initState)
    (Step.userConnect initState)

/-! ### Key/value pass-through (AiloClient.getData, src/ailo-client.ts
lines 163-169) -/

/-- Embedding of the JavaScript nullish coalescing x ?? y on nullable
values: take x unless it is null or undefined. -/
def nullish {α : Type} (x : Option α) (y : Option α) : Option α :=
  match x with
  | some v => some v
  | none => y

/-- The payload of a channel.data.get response: a found flag and an
optional stored value. -/
structure DataGetPayload where
  found : Bool
  value : Option String
deriving DecidableEq, Repr

/-- Embedding of the result handling of AiloClient.getData: the JS
expression res.found ? (res.value ?? null) : null, with null rendered as
none. -/
def getData (res : DataGetPayload) : Option String :=
  if res.found then nullish res.value none else none

/-- C8: getData returns null (none) when the response reports the key
absent, and returns exactly the stored string when present — the empty
string included, which stays distinguished from null; absence is a
returned null, not a thrown error (the embedding is a total function into
Option and the absent branch is a value, not a failure). -/
theorem getData_null_absent_exact_present (res : DataGetPayload) :
    (res.found = false → getData res = none) ∧
    (∀ v : String, res.found = true → res.value = some v → getData res = some v) ∧
    (getData ⟨true, some ""⟩ = some "" ∧ some "" ≠ (none : Option String)) := by
  refine ⟨?_, ?_, by decide, by decide⟩
  · intro h; simp [getData, h]
  · intro v hf hv; simp [getData, hf, hv, nullish]

/-- Witness for C8: an absent key yields none, a present key yields the
exact stored string, and a present empty string yields some of the empty
string (each hypothesis discharged on a concrete response payload). -/
theorem getData_null_absent_exact_present_witness :
    getData ⟨false, none⟩ = none ∧
    getData ⟨true, some "x"⟩ = some "x" ∧
    getData ⟨true, some ""⟩ = some "" :=
  ⟨(getData_null_absent_exact_present ⟨false, none⟩).1 rfl,
   (getData_null_absent_exact_present ⟨true, some "x"⟩).2.1 "x" rfl rfl,
   (getData_null_absent_exact_present ⟨true, some ""⟩).2.2.1⟩

/-! ### Context tags and the chatId derivation (tagValue, sendMessage;
src/ailo-client.ts lines 5-10 and 148-160) -/

/-- A context tag as declared in src/types.ts: exactly the properties
key, desc and value. -/
structure ContextTag where
  key : String
  desc : String
  value : String
deriving DecidableEq, Repr

/-- JavaScript property access t.kind on a context-tag object. The
ContextTag objects this SDK constructs carry exactly the properties key,
desc and value (src/types.ts line 73), so reading kind yields undefined. -/
def ContextTag.kindProp (_ : ContextTag) : Option String := none

/-- Embedding of tagValue (src/ailo-client.ts lines 5-10): return the
value of the first tag whose kind property strictly equals the requested
string (the source compares t.kind === kind), or the empty string if no
tag matches. -/
def tagValue : List ContextTag → String → String
  | [], _ => ""
  | t :: ts, kind =>
      if t.kindProp = some kind then t.value else tagValue ts kind

/-- Embedding of the chatId computation of AiloClient.sendMessage
(line 149): the JS expression tagValue(msg.contextTags, "chat_id") with
the or-else fallback "main" — the fallback is taken exactly when tagValue
returns the empty string, which is falsy. -/
def sendMessageChatId (tags : List ContextTag) : String :=
  let v := tagValue tags "chat_id"
  if v = "" then "main" else v

theorem tagValue_always_empty (tags : List ContextTag) (kind : String) :
    tagValue tags kind = "" := by
  induction tags with
  | nil => rfl
  | cons t ts ih => simp [tagValue, ContextTag.kindProp, ih]

/-- C9 divergence: tagValue compares the kind property, which no tag
built by this SDK possesses (the tags carry key, desc, value), so it
always returns the empty string and sendMessage always sends the fixed
default chatId "main" — including when a chat-id tag with a non-empty
value is present, where the claim requires that value to be sent. -/
theorem sendMessage_chatId_always_main :
    (∀ tags : List ContextTag, sendMessageChatId tags = "main") ∧
    sendMessageChatId [⟨"chat_id", "会话", "c42"⟩] = "main" ∧
    ("main" : String) ≠ "c42" := by
  refine ⟨?_, ?_, by decide⟩
  · intro tags
    simp [sendMessageChatId, tagValue_always_empty]
  · simp [sendMessageChatId, tagValue_always_empty]

/-! ### Inbound event shaping (runMcpChannel onMessage handler,
src/bootstrap.ts lines 92-160) -/

/-- An attachment; only its presence matters to the bridge logic. -/
structure Attachment where
  atype : String
deriving DecidableEq, Repr

/-- A platform timestamp as the bridge receives it: a number or a
string. -/
inductive JsTimestamp where
  | num (n : Int)
  | str (s : String)
deriving DecidableEq, Repr

/-- Value of the maximal leading run of decimal digits, none when the run
is empty (the NaN case of parseInt). -/
def parseDigits (cs : List Char) : Option Nat :=
  let ds := cs.takeWhile Char.isDigit
  if ds.isEmpty then none
  else some (ds.foldl (fun acc c => acc * 10 + (c.toNat - 48)) 0)

/-- Embedding of the JavaScript call parseInt(s, 10): skip leading
whitespace, accept an optional sign, then read leading decimal digits;
none models NaN. -/
def jsParseInt (s : String) : Option Int :=
  let cs := s.data.dropWhile isJsSpace
  match cs with
  | '-' :: rest => (parseDigits rest).map (fun n => -(n : Int))
  | '+' :: rest => (parseDigits rest).map (fun n => (n : Int))
  | _ => (parseDigits cs).map (fun n => (n : Int))

/-- The tsMs computation of src/bootstrap.ts lines 127-132: a numeric
timestamp is used as is, a string one goes through parseInt. -/
def tsMilliseconds : JsTimestamp → Option Int
  | .num n => some n
  | .str s => jsParseInt s

/-- The sent-at tag value of src/bootstrap.ts lines 133-137: present only
when the parsed timestamp is a number (not NaN) and positive, formatted
by the zero-padded local date-time formatter, which is passed in as a
parameter (its output never influences control flow). -/
def sentAtValue (fmt : Int → String) (ts : JsTimestamp) : Option String :=
  match tsMilliseconds ts with
  | none => none
  | some n => if 0 < n then some (fmt n) else none

/-- A bridge inbound message, as the onMessage handler of
src/bootstrap.ts reads it at runtime. Optional properties are Option;
isPrivate is read by the handler (msg.isPrivate ?? false) though the
declared BridgeMessage type of src/types.ts omits it, so it too is an
optional property here. -/
structure BridgeMessage where
  chatId : String
  senderId : Option String
  senderName : Option String
  chatType : String
  chatName : Option String
  text : Option String
  mentionsSelf : Option Bool
  attachments : Option (List Attachment)
  timestamp : Option JsTimestamp
  isPrivate : Option Bool
deriving Repr

/-- Embedding of the JS expression s.slice(-8): the last eight characters
(the whole string when shorter). -/
def jsSliceLast8 (s : String) : String :=
  String.mk (s.data.drop (s.data.length - 8))

/-- Embedding of the groupLabel expression of src/bootstrap.ts
lines 107-109: false (rendered as the falsy empty string) for private
sessions; otherwise the chat name if truthy, else a marker plus the last
eight characters of the chat id if that is truthy, else the empty
string. -/
def groupLabel (msg : BridgeMessage) : String :=
  if msg.isPrivate.getD false then ""
  else if (msg.chatName.getD "") ≠ "" then msg.chatName.getD ""
  else if msg.chatId ≠ "" then "群" ++ jsSliceLast8 msg.chatId
  else ""

/-- Embedding of the context-tag construction of src/bootstrap.ts
lines 111-139: chat_type and chat_id always, chat_name only when the
group label is truthy, then sender_name and sender_id, then
mentions_self only when the message mentions the bridge, then sent_at
only when a valid positive timestamp is present. -/
def buildContextTags (fmt : Int → String) (msg : BridgeMessage) : List ContextTag :=
  let gl := groupLabel msg
  let base := [ContextTag.mk "chat_type" "类型" msg.chatType,
               ContextTag.mk "chat_id" "会话" msg.chatId]
  let withLabel := if gl ≠ "" then base ++ [ContextTag.mk "chat_name" "群名" gl] else base
  let withSender := withLabel ++
      [ContextTag.mk "sender_name" "昵称" (msg.senderName.getD ""),
       ContextTag.mk "sender_id" "用户ID" (msg.senderId.getD "")]
  let withMentions :=
    if msg.mentionsSelf.getD false then
      withSender ++ [ContextTag.mk "mentions_self" "提及自己" "true"]
    else withSender
  match msg.timestamp with
  | none => withMentions
  | some ts =>
      match sentAtValue fmt ts with
      | none => withMentions
      | some v => withMentions ++ [ContextTag.mk "sent_at" "发送时间" v]

/-- Embedding of the participation-filling for-loop of src/bootstrap.ts
lines 146-148: push isPrivate until the vector is as long as the tag
list. -/
def corePushLoop (isPrivate : Bool) (core : List Bool) (total : Nat) : List Bool :=
  if _h : core.length < total then corePushLoop isPrivate (core ++ [isPrivate]) total
  else core
termination_by total - core.length
decreasing_by simp only [List.length_append, List.length_cons, List.length_nil]; omega

/-- Embedding of the coreForSenseContext construction of src/bootstrap.ts
lines 141-148: two true entries, a third when the group label is truthy,
then isPrivate up to the number of tags. -/
def coreForSenseContext (msg : BridgeMessage) (tagCount : Nat) : List Bool :=
  let core0 :=
    if groupLabel msg ≠ "" then [true, true, true] else [true, true]
  corePushLoop (msg.isPrivate.getD false) core0 tagCount

theorem corePushLoop_eq_replicate (p : Bool) (total : Nat) :
    ∀ (k : Nat) (core : List Bool), total - core.length = k →
      corePushLoop p core total = core ++ List.replicate k p := by
  intro k
  induction k with
  | zero =>
      intro core hk
      have hnot : ¬ core.length < total := by omega
      rw [corePushLoop]
      simp [hnot]
  | succ n ih =>
      intro core hk
      have hlt : core.length < total := by omega
      rw [corePushLoop]
      have h2 : total - (core ++ [p]).length = n := by
        simp only [List.length_append, List.length_cons, List.length_nil]
        omega
      simp only [hlt, dif_pos]
      rw [ih (core ++ [p]) h2, List.append_assoc]
      rfl

theorem buildContextTags_length (fmt : Int → String) (msg : BridgeMessage) :
    (buildContextTags fmt msg).length =
      (if groupLabel msg ≠ "" then 3 else 2) + 2 +
      (if msg.mentionsSelf.getD false then 1 else 0) +
      (match msg.timestamp with
       | none => 0
       | some ts => match sentAtValue fmt ts with
         | none => 0
         | some _ => 1) := by
  unfold buildContextTags
  by_cases hgl : groupLabel msg ≠ "" <;>
    by_cases hm : msg.mentionsSelf.getD false <;>
      rcases msg.timestamp with _ | ts <;>
        simp [hgl, hm] <;>
          rcases sentAtValue fmt ts with _ | v <;> simp

theorem coreForSenseContext_eq (msg : BridgeMessage) (total : Nat) :
    coreForSenseContext msg total =
      List.replicate (if groupLabel msg ≠ "" then 3 else 2) true ++
      List.replicate (total - (if groupLabel msg ≠ "" then 3 else 2))
        (msg.isPrivate.getD false) := by
  unfold coreForSenseContext
  by_cases hgl : groupLabel msg ≠ ""
  · rw [if_pos hgl, if_pos hgl]
    exact corePushLoop_eq_replicate (msg.isPrivate.getD false) total (total - 3)
      [true, true, true] (by simp)
  · rw [if_neg hgl, if_neg hgl]
    exact corePushLoop_eq_replicate (msg.isPrivate.getD false) total (total - 2)
      [true, true] (by simp)

theorem labelCount_le_length (fmt : Int → String) (msg : BridgeMessage) :
    (if groupLabel msg ≠ "" then 3 else 2) ≤ (buildContextTags fmt msg).length := by
  rw [buildContextTags_length]
  by_cases hgl : groupLabel msg ≠ "" <;> simp [hgl] <;> omega

/-- C6: the forwarded context-tag sequence is built in the fixed order
chat type, session id, optional group label, sender name, sender id,
optional mentions-self, optional timestamp; the participation vector is a
leading run of true entries through the label tag followed by entries all
equal to isPrivate: it has the same length as the tag list, a private
session gets an all-true vector, and a group session with a label gets
true for the first three tags and false from the sender-name tag on. -/
theorem context_tags_order_and_participation (fmt : Int → String) (msg : BridgeMessage) :
    ((buildContextTags fmt msg).map ContextTag.key =
       ["chat_type", "chat_id"] ++ (if groupLabel msg ≠ "" then ["chat_name"] else []) ++
       ["sender_name", "sender_id"] ++
       (if msg.mentionsSelf.getD false then ["mentions_self"] else []) ++
       (match msg.timestamp with
        | none => []
        | some ts =>
            match sentAtValue fmt ts with
            | none => []
            | some _ => ["sent_at"])) ∧
    (coreForSenseContext msg (buildContextTags fmt msg).length =
       List.replicate (if groupLabel msg ≠ "" then 3 else 2) true ++
       List.replicate ((buildContextTags fmt msg).length -
         (if groupLabel msg ≠ "" then 3 else 2)) (msg.isPrivate.getD false)) ∧
    ((coreForSenseContext msg (buildContextTags fmt msg).length).length =
       (buildContextTags fmt msg).length) ∧
    (msg.isPrivate.getD false = true →
       coreForSenseContext msg (buildContextTags fmt msg).length =
         List.replicate (buildContextTags fmt msg).length true) ∧
    (msg.isPrivate.getD false = false → groupLabel msg ≠ "" →
       coreForSenseContext msg (buildContextTags fmt msg).length =
         [true, true, true] ++
         List.replicate ((buildContextTags fmt msg).length - 3) false) := by
  have hk := labelCount_le_length fmt msg
  have hcore := coreForSenseContext_eq msg (buildContextTags fmt msg).length
  refine ⟨?_, hcore, ?_, ?_, ?_⟩
  · unfold buildContextTags
    by_cases hgl : groupLabel msg ≠ "" <;>
      by_cases hm : msg.mentionsSelf.getD false <;>
        rcases msg.timestamp with _ | ts <;>
          simp [hgl, hm] <;>
            rcases sentAtValue fmt ts with _ | v <;> simp
  · rw [hcore]
    simp only [List.length_append, List.length_replicate]
    omega
  · intro hp
    rw [hcore, hp, ← List.replicate_add]
    congr 1
    omega
  · intro hp hgl
    rw [hcore, hp, if_pos hgl]
    rfl

/-- Witness for C6: the two scenarios of the specification test — a
private-session event from Alice (u1) in session c12345678 gets an
all-true participation vector, and a group-session event with explicit
label Team gets true for the first three tags and false afterwards; the
isPrivate and label hypotheses are discharged on these concrete
messages. -/
theorem context_tags_order_and_participation_witness :
    coreForSenseContext
        (BridgeMessage.mk "c12345678" (some "u1") (some "Alice") "private" none
          (some "hi") none none none (some true))
        (buildContextTags (fun _ => "")
          (BridgeMessage.mk "c12345678" (some "u1") (some "Alice") "private" none
            (some "hi") none none none (some true))).length =
      List.replicate
        (buildContextTags (fun _ => "")
          (BridgeMessage.mk "c12345678" (some "u1") (some "Alice") "private" none
            (some "hi") none none none (some true))).length true ∧
    coreForSenseContext
        (BridgeMessage.mk "c12345678" (some "u1") (some "Alice") "group" (some "Team")
          (some "hi") none none none (some false))
        (buildContextTags (fun _ => "")
          (BridgeMessage.mk "c12345678" (some "u1") (some "Alice") "group" (some "Team")
            (some "hi") none none none (some false))).length =
      [true, true, true] ++
      List.replicate
        ((buildContextTags (fun _ => "")
          (BridgeMessage.mk "c12345678" (some "u1") (some "Alice") "group" (some "Team")
            (some "hi") none none none (some false))).length - 3) false :=
  ⟨(context_tags_order_and_participation (fun _ => "")
      (BridgeMessage.mk "c12345678" (some "u1") (some "Alice") "private" none
        (some "hi") none none none (some true))).2.2.2.1 rfl,
   (context_tags_order_and_participation (fun _ => "")
      (BridgeMessage.mk "c12345678" (some "u1") (some "Alice") "group" (some "Team")
        (some "hi") none none none (some false))).2.2.2.2 rfl (by decide)⟩

/-! ### Content gate of the inbound handler (src/bootstrap.ts line 93 and
the tag-protocol bridge generation, part line 94) -/

/-- Embedding of the hasContent check of src/bootstrap.ts line 93: the JS
expression (msg.text ?? "").trim() !== "" || (msg.attachments?.length ?? 0) > 0. -/
def hasContent (msg : BridgeMessage) : Bool :=
  decide (jsTrim (msg.text.getD "") ≠ "") ||
  decide (0 < (msg.attachments.map List.length).getD 0)

/-- Embedding of the hasContent check of the tag-protocol bridge
generation: msg.text?.trim() ?? "" compared with the empty string, or
attachments present, or a non-empty context-tag sequence. -/
def hasContentTagVariant (text : Option String) (attachments : Option (List Attachment))
    (contextTags : List ContextTag) : Bool :=
  decide (((text.map jsTrim).getD "") ≠ "") ||
  decide (0 < (attachments.map List.length).getD 0) ||
  decide (0 < contextTags.length)

/-- The inbound handler's remote-call decision (src/bootstrap.ts
lines 92-156): none when the event is dropped before any remote call,
some of the built accept arguments when client.sendMessage is invoked. -/
def onMessageAction (fmt : Int → String) (msg : BridgeMessage) :
    Option (List ContextTag × List Bool) :=
  if hasContent msg = false then none
  else some (buildContextTags fmt msg,
             coreForSenseContext msg (buildContextTags fmt msg).length)

/-- The tag-protocol generation's remote-call decision (part line 94-101):
none when dropped, some () when client.sendMessage is invoked. -/
def onMessageActionTagVariant (text : Option String)
    (attachments : Option (List Attachment)) (contextTags : List ContextTag) :
    Option Unit :=
  if hasContentTagVariant text attachments contextTags = false then none
  else some ()

/-- C7 counterexample: an event whose text is a single space — non-empty
text, no attachments, no context tags — is dropped without a remote call
in both bridge generations, because the content check trims the text
first; this contradicts the claim that every event with non-empty text is
forwarded. -/
theorem whitespace_text_event_still_dropped :
    (" " ≠ "") ∧
    onMessageAction (fun _ => "")
      (BridgeMessage.mk "c1" none none "private" none (some " ") none none none none)
      = none ∧
    onMessageActionTagVariant (some " ") none [] = none := by
  refine ⟨by decide, ?_, ?_⟩ <;> rfl

/-- C7 amended: an inbound event is dropped without any remote call
exactly when its whitespace-trimmed text is empty, it has no attachments,
and (in the tag-protocol generation) its context-tag sequence is empty;
any event with non-blank trimmed text, an attachment, or (tag variant) a
context tag is forwarded. -/
theorem empty_content_dropped_iff (fmt : Int → String) (msg : BridgeMessage)
    (text : Option String) (atts : Option (List Attachment)) (tags : List ContextTag) :
    (onMessageAction fmt msg = none ↔
      (jsTrim (msg.text.getD "") = "" ∧ (msg.attachments.map List.length).getD 0 = 0)) ∧
    (onMessageActionTagVariant text atts tags = none ↔
      (((text.map jsTrim).getD "") = "" ∧ (atts.map List.length).getD 0 = 0 ∧
        tags = [])) := by
  constructor
  · unfold onMessageAction hasContent
    by_cases h1 : jsTrim (msg.text.getD "") = "" <;>
      by_cases h2 : (msg.attachments.map List.length).getD 0 = 0 <;>
        simp [h1, h2]
  · unfold onMessageActionTagVariant hasContentTagVariant
    by_cases h1 : ((text.map jsTrim).getD "") = "" <;>
      by_cases h2 : (atts.map List.length).getD 0 = 0 <;>
        by_cases h3 : tags = [] <;>
          simp [h1, h2, h3]

/-! ### Stdio guard (the stdout interceptor module) -/

/-- Destination of one routed line. -/
inductive Dest where
  | stdout
  | stderr
deriving DecidableEq, Repr

/-- Embedding of routeLine (stdio guard lines 21-25): empty after
trimming goes to stderr, a trimmed line starting with the opening brace
goes to stdout, everything else to stderr. -/
def routeLine (line : String) : Dest :=
  let trimmed := jsTrim line
  if trimmed.length = 0 then Dest.stderr
  else if jsStartsWith trimmed "\x7b" then Dest.stdout
  else Dest.stderr

theorem routeLine_stdout_iff (line : String) :
    routeLine line = Dest.stdout ↔ jsStartsWith (jsTrim line) "\x7b" = true := by
  unfold routeLine
  by_cases h0 : (jsTrim line).length = 0
  · have hdata : (jsTrim line).data = [] := by
      exact List.length_eq_zero.mp h0
    have hsw : jsStartsWith (jsTrim line) "\x7b" = false := by
      unfold jsStartsWith
      rw [hdata]
      have hb : ("\x7b" : String).data = ['\x7b'] := by decide
      rw [hb]
      rfl
    simp [h0, hsw]
  · by_cases hb : jsStartsWith (jsTrim line) "\x7b" = true
    · simp [h0, hb]
    · simp [h0, hb]

/-- The intercepted write routes each complete line (stdio guard
lines 41-48): a newline is re-appended and the line is pushed onto the
stdout batch or the stderr batch according to routeLine, preserving
order. -/
def routeLines : List String → List String × List String
  | [] => ([], [])
  | l :: ls =>
      let rest := routeLines ls
      if routeLine l = Dest.stdout then ((l ++ "\n") :: rest.1, rest.2)
      else (rest.1, (l ++ "\n") :: rest.2)

/-- Strip one trailing carriage return (the optional CR of the line
separator regexp). -/
def stripCr (s : String) : String :=
  if s.endsWith "\r" then s.dropRight 1 else s

/-- Strip the optional CR from every piece that was followed by a
newline, i.e. every piece but the last. -/
def stripCrSegments : List String → List String
  | [] => []
  | [p] => [p]
  | p :: rest => stripCr p :: stripCrSegments rest

/-- Embedding of the JS split on the CR-optional newline regexp. -/
def splitLinesJs (s : String) : List String :=
  stripCrSegments (s.splitOn "\n")

/-- The 64KB cap on the carried-over line buffer (stdio guard line 19). -/
def MAX_LINE_BUFFER : Nat := 64 * 1024

/-- Embedding of the JS expression s.slice(-n): the last n characters. -/
def jsSliceLastN (s : String) (n : Nat) : String :=
  String.mk (s.data.drop (s.data.length - n))

/-- Result of one intercepted process.stdout.write call: the batch
written to the real stdout, the batch written to stderr, and the
leftover partial line kept in the buffer. -/
structure WriteResult where
  outLines : List String
  errLines : List String
  newBuffer : String
deriving DecidableEq, Repr

/-- Embedding of the intercepted process.stdout.write (stdio guard
lines 27-58): append the chunk to the carried buffer, truncate the buffer
to its last 64K characters if it overflows, split into lines, keep the
last (unterminated) piece as the new buffer, and route every complete
line. -/
def stdoutWriteIntercepted (buffer chunk : String) : WriteResult :=
  let buf1 := buffer ++ chunk
  let buf2 := if MAX_LINE_BUFFER < buf1.length then jsSliceLastN buf1 MAX_LINE_BUFFER
              else buf1
  let lines := splitLinesJs buf2
  let newBuf := (lines.getLast?).getD ""
  let complete := lines.dropLast
  let routed := routeLines complete
  ⟨routed.1, routed.2, newBuf⟩

theorem routeLines_eq_filter (ls : List String) :
    routeLines ls =
      ((ls.filter (fun l => jsStartsWith (jsTrim l) "\x7b")).map (fun l => l ++ "\n"),
       (ls.filter (fun l => ! jsStartsWith (jsTrim l) "\x7b")).map (fun l => l ++ "\n")) := by
  induction ls with
  | nil => rfl
  | cons l ls ih =>
      by_cases hb : jsStartsWith (jsTrim l) "\x7b" = true
      · have hr : routeLine l = Dest.stdout := (routeLine_stdout_iff l).mpr hb
        simp [routeLines, ih, hb, hr]
      · have hr : ¬ routeLine l = Dest.stdout := by
          rw [routeLine_stdout_iff]
          simpa using hb
        simp [routeLines, ih, hr]
        simp at hb
        simp [hb]

/-- C10: every complete line of an intercepted write is forwarded to the
real stdout exactly when its whitespace-trimmed content starts with the
opening brace, and goes to stderr otherwise — so the stdout batch is the
brace-prefixed sublist and the stderr batch the rest, in order; an empty
line routes to stderr; and when the combined buffer stays at or below the
64KB cap, the complete lines are exactly all but the last piece of the
newline split of buffer plus chunk. -/
theorem stdio_guard_routing (buffer chunk : String) :
    ((stdoutWriteIntercepted buffer chunk).outLines =
      (((splitLinesJs (if MAX_LINE_BUFFER < (buffer ++ chunk).length
            then jsSliceLastN (buffer ++ chunk) MAX_LINE_BUFFER
            else buffer ++ chunk)).dropLast.filter
          (fun l => jsStartsWith (jsTrim l) "\x7b")).map (fun l => l ++ "\n"))) ∧
    ((stdoutWriteIntercepted buffer chunk).errLines =
      (((splitLinesJs (if MAX_LINE_BUFFER < (buffer ++ chunk).length
            then jsSliceLastN (buffer ++ chunk) MAX_LINE_BUFFER
            else buffer ++ chunk)).dropLast.filter
          (fun l => ! jsStartsWith (jsTrim l) "\x7b")).map (fun l => l ++ "\n"))) ∧
    (∀ line : String,
      routeLine line = Dest.stdout ↔ jsStartsWith (jsTrim line) "\x7b" = true) ∧
    routeLine "" = Dest.stderr ∧
    ((buffer ++ chunk).length ≤ MAX_LINE_BUFFER →
      (stdoutWriteIntercepted buffer chunk).outLines =
        (((splitLinesJs (buffer ++ chunk)).dropLast.filter
            (fun l => jsStartsWith (jsTrim l) "\x7b")).map (fun l => l ++ "\n"))) := by
  have hmain : stdoutWriteIntercepted buffer chunk =
      ⟨(((splitLinesJs (if MAX_LINE_BUFFER < (buffer ++ chunk).length
            then jsSliceLastN (buffer ++ chunk) MAX_LINE_BUFFER
            else buffer ++ chunk)).dropLast.filter
          (fun l => jsStartsWith (jsTrim l) "\x7b")).map (fun l => l ++ "\n")),
        (((splitLinesJs (if MAX_LINE_BUFFER < (buffer ++ chunk).length
            then jsSliceLastN (buffer ++ chunk) MAX_LINE_BUFFER
            else buffer ++ chunk)).dropLast.filter
          (fun l => ! jsStartsWith (jsTrim l) "\x7b")).map (fun l => l ++ "\n")),
        (((splitLinesJs (if MAX_LINE_BUFFER < (buffer ++ chunk).length
            then jsSliceLastN (buffer ++ chunk) MAX_LINE_BUFFER
            else buffer ++ chunk)).getLast?).getD "")⟩ := by
    simp only [stdoutWriteIntercepted, routeLines_eq_filter]
  refine ⟨by rw [hmain], by rw [hmain], routeLine_stdout_iff, rfl, ?_⟩
  intro hle
  have hno : ¬ MAX_LINE_BUFFER < (buffer ++ chunk).length := by omega
  rw [hmain]
  simp only [hno, if_neg, if_false]

/-- Witness for C10: a concrete write of one JSON line followed by one
plain line, below the cap; the cap hypothesis is discharged by
computation. -/
theorem stdio_guard_routing_witness :
    ("" ++ "\x7bok\x7d\nplain\n").length ≤ MAX_LINE_BUFFER ∧
    (stdoutWriteIntercepted "" "\x7bok\x7d\nplain\n").outLines =
      (((splitLinesJs ("" ++ "\x7bok\x7d\nplain\n")).dropLast.filter
          (fun l => jsStartsWith (jsTrim l) "\x7b")).map (fun l => l ++ "\n")) :=
  ⟨by decide, (stdio_guard_routing "" "\x7bok\x7d\nplain\n").2.2.2.2 (by decide)⟩

end AiloSdk
